import Mathlib

/-!
# Verification of the `futures-retry` retry state machines

Shallow embedding of the two retry combinators of the crate:

* `StreamRetry` (src/src/stream.rs) — retries failed element production of a
  wrapped asynchronous sequence, tagging every emitted element with the
  1-indexed attempt number.
* `FutureRetry` (src/src/future.rs) — drives a factory-produced asynchronous
  operation to completion, recreating it via the factory on recoverable
  failures.

The wrapped stream is embedded as the list of responses its successive
`try_poll_next` calls produce (`Poll::Pending`, an `Ok`/`Err` item, with the
empty list standing for the exhausted stream that keeps answering `None`).
A `tokio::time::Sleep` timer is embedded as the number of `Pending` polls it
answers before resolving.  Handlers are embedded as pure decision functions;
the side-effecting `handle`/`ok` notifications of the `ErrorHandler` trait are
recorded in an explicit event log returned by each poll.
-/

/-- Modelled from the spec: the `RetryPolicy` decision type is declared in the
crate root, which is not under `src/`; §3 of the spec gives its three
variants (`ForwardError(E)` terminal, `Repeat` immediate, `WaitRetry(duration)`
delayed).  Durations are modelled as natural numbers of milliseconds. -/
inductive RetryPolicy (E : Type) where
  | ForwardError (e : E)
  | Repeat
  | WaitRetry (duration : Nat)
deriving DecidableEq, Repr

/-- Rust's `Result` type, embedded with its source constructor names. -/
inductive RResult (T E : Type) where
  | Ok (v : T)
  | Err (e : E)
deriving DecidableEq, Repr

/-- One response of the wrapped stream's `try_poll_next`:
`Poll::Pending`, or a ready `Ok`/`Err` item.  The exhausted stream
(`Poll::Ready(None)`) is represented by the response list running out. -/
inductive StreamEv (I E : Type) where
  | pending
  | item (r : RResult I E)
deriving DecidableEq, Repr

/-- A notification delivered to the `ErrorHandler`: `handle(attempt, e)` on a
failure, `ok(attempt)` on a success.  (The `ErrorHandler` trait itself is
declared in the crate root, outside `src/`; its two methods are modelled from
the spec §3.) -/
inductive HandlerEv (E : Type) where
  | handleCall (attempt : Nat) (e : E)
  | okCall (attempt : Nat)
deriving DecidableEq, Repr

/-- The state tag of `StreamRetry` (stream.rs, `enum RetryState`):
either listening on the wrapped stream or waiting on a timer.  The timer
(`time::Sleep`) is embedded as the number of further polls it answers
`Pending` before resolving. -/
inductive RetryState where
  | WaitingForStream
  | TimerActive (delay : Nat)
deriving DecidableEq, Repr

/-- The result of one `poll_next` call: `Poll::Pending` or
`Poll::Ready(opt)` where the optional item is
`Result<(item, attempt), (error, attempt)>`. -/
inductive SPollRes (I E' : Type) where
  | Pending
  | Ready (item : Option (RResult (I × Nat) (E' × Nat)))
deriving DecidableEq, Repr

/-- The complete outcome of one `poll_next` call on the projected fields of a
`StreamRetry`: result, new attempt counter, new state tag, remaining stream
responses, and the handler notifications issued during the call. -/
structure SOut (I E E' : Type) where
  res : SPollRes I E'
  attempt : Nat
  state : RetryState
  stream : List (StreamEv I E)
  log : List (HandlerEv E)
deriving Repr

/-- The loop of `StreamRetry::poll_next` (stream.rs lines 144–177) restricted
to the `WaitingForStream` arm, recursing on the stream's response list.

* an exhausted stream returns `Ready(None)` and touches nothing;
* a `Pending` source response propagates `Poll::Pending`;
* `Some(Ok(x))` resets the counter to 1, calls `ok` with the pre-reset value
  and emits `(x, attempt)`;
* `Some(Err(e))` increments the counter, consults `handle(attempt, e)` with
  the pre-increment value, and then either emits `(e', attempt)`
  (`ForwardError`), continues the loop at once (`Repeat`), or arms the timer
  (`WaitRetry`); an armed timer is polled inside the same call, so a zero
  delay continues the loop and a positive one reports `Pending`. -/
def poll_listening (handle : Nat → E → RetryPolicy E') (attempt : Nat) :
    List (StreamEv I E) → SOut I E E'
  | [] => ⟨.Ready none, attempt, .WaitingForStream, [], []⟩
  | .pending :: rest => ⟨.Pending, attempt, .WaitingForStream, rest, []⟩
  | .item (.Ok x) :: rest =>
      ⟨.Ready (some (.Ok (x, attempt))), 1, .WaitingForStream, rest,
        [.okCall attempt]⟩
  | .item (.Err e) :: rest =>
      match handle attempt e with
      | .ForwardError e2 =>
          ⟨.Ready (some (.Err (e2, attempt))), attempt + 1, .WaitingForStream,
            rest, [.handleCall attempt e]⟩
      | .Repeat =>
          let out := poll_listening handle (attempt + 1) rest
          { out with log := .handleCall attempt e :: out.log }
      | .WaitRetry 0 =>
          let out := poll_listening handle (attempt + 1) rest
          { out with log := .handleCall attempt e :: out.log }
      | .WaitRetry (d + 1) =>
          ⟨.Pending, attempt + 1, .TimerActive d, rest, [.handleCall attempt e]⟩

/-- The `StreamRetry` combinator (stream.rs lines 27–34): the error handler
(embedded as a pure decision function `attempt → error → policy`), the wrapped
stream, the attempt counter and the state tag. -/
structure StreamRetry (I E E' : Type) where
  error_action : Nat → E → RetryPolicy E'
  stream : List (StreamEv I E)
  attempt : Nat
  state : RetryState

/-- Embeds `StreamRetry::with_counter` (stream.rs lines 126–133): a caller-supplied
initial attempt counter, state `WaitingForStream`. -/
def StreamRetry.with_counter (stream : List (StreamEv I E))
    (error_action : Nat → E → RetryPolicy E') (attempt_counter : Nat) :
    StreamRetry I E E' :=
  { error_action, stream, attempt := attempt_counter,
    state := .WaitingForStream }

/-- Embeds `StreamRetry::new` (stream.rs lines 118–123): `with_counter` with 1. -/
def StreamRetry.new (stream : List (StreamEv I E))
    (error_action : Nat → E → RetryPolicy E') : StreamRetry I E E' :=
  StreamRetry.with_counter stream error_action 1

/-- Re-packing the outcome of the listening loop into the machine. -/
def StreamRetry.lift (s : StreamRetry I E E') (out : SOut I E E') :
    SPollRes I E' × StreamRetry I E E' × List (HandlerEv E) :=
  (out.res,
    { s with attempt := out.attempt, state := out.state, stream := out.stream },
    out.log)

/-- Embeds `StreamRetry::poll_next` (stream.rs lines 143–177).  An active timer that
has not yet resolved answers `Pending`; a resolved timer falls through to the
listening loop within the same call. -/
def StreamRetry.poll_next (s : StreamRetry I E E') :
    SPollRes I E' × StreamRetry I E E' × List (HandlerEv E) :=
  match s.state with
  | .TimerActive (r + 1) => (.Pending, { s with state := .TimerActive r }, [])
  | .TimerActive 0 => s.lift (poll_listening s.error_action s.attempt s.stream)
  | .WaitingForStream =>
      s.lift (poll_listening s.error_action s.attempt s.stream)

/-- Drives `poll_next` up to `fuel` times, collecting the emitted items and
the handler notifications, stopping at end-of-stream. -/
def run_stream (fuel : Nat) (s : StreamRetry I E E') :
    List (RResult (I × Nat) (E' × Nat)) × List (HandlerEv E) ×
      StreamRetry I E E' :=
  match fuel with
  | 0 => ([], [], s)
  | fuel + 1 =>
    match s.poll_next with
    | (.Ready none, s', log) => ([], log, s')
    | (.Ready (some it), s', log) =>
        let r := run_stream fuel s'
        (it :: r.1, log ++ r.2.1, r.2.2)
    | (.Pending, s', log) =>
        let r := run_stream fuel s'
        (r.1, log ++ r.2.1, r.2.2)

/-- An asynchronous operation produced by the factory (future.rs): it answers
`NotReady` for `pends` polls and then resolves to `result` (`Ok` value or
`Err` error) exactly once. -/
structure FutBeh (V E : Type) where
  pends : Nat
  result : RResult V E
deriving DecidableEq, Repr

/-- A `tokio_timer::Delay` (future.rs): it answers `NotReady` for `pends`
polls and then either resolves (`fails = false`) or reports a timer error
(`fails = true`). -/
structure DelayBeh where
  pends : Nat
  fails : Bool
deriving DecidableEq, Repr

/-- A notification issued during a `FutureRetry::poll` call: a call of the
factory's `new`, or a call of the handler's `handle(e)`.  The handler's `ok`
is listed so the log can witness whether the future variant ever calls it. -/
inductive FEv (E : Type) where
  | factoryCall
  | handleCall (e : E)
  | okCall
deriving DecidableEq, Repr

/-- The state tag of `FutureRetry` (future.rs, `enum RetryState`). -/
inductive FRetryState (V E : Type) where
  | WaitingForFuture (f : FutBeh V E)
  | TimerActive (d : DelayBeh)
deriving DecidableEq, Repr

/-- The `FutureRetry` combinator (future.rs lines 41–48): the factory
(embedded as the infinite sequence of operations it would produce, indexed by
the number of previous calls), the call counter, the error handler (a pure
decision function), and the state tag. -/
structure FutureRetry (V E E' : Type) where
  factory : Nat → FutBeh V E
  error_action : E → RetryPolicy E'
  calls : Nat
  state : FRetryState V E

/-- Embeds `FutureRetry::new` (future.rs lines 68–75): invokes `factory.new()` once
and starts waiting on that operation. -/
def FutureRetry.new (factory : Nat → FutBeh V E)
    (error_action : E → RetryPolicy E') : FutureRetry V E E' :=
  { factory, error_action, calls := 1,
    state := .WaitingForFuture (factory 0) }

/-- The result of one `FutureRetry::poll` call:
`Ok(Async::Ready(v))`, `Ok(Async::NotReady)`, `Err(e)`, or the `panic!` taken
on a timer error (future.rs line 98). -/
inductive FPollRes (V E' : Type) where
  | Ready (v : V)
  | NotReady
  | Errored (e : E')
  | Panicked
deriving DecidableEq, Repr

/-- Prepends notifications to the log of a poll outcome. -/
def addFLog (l : List (FEv E)) :
    Option (FPollRes V E' × FutureRetry V E E' × List (FEv E)) →
      Option (FPollRes V E' × FutureRetry V E E' × List (FEv E))
  | none => none
  | some (r, s, lg) => some (r, s, l ++ lg)

/-- Embeds `FutureRetry::poll` (future.rs lines 85–114).  `mkDelay` is the injected
timer capability: the behaviour of the `Delay` created for a requested
duration.  The `fuel` bounds the number of iterations of the source's `loop`;
`none` means the loop was still running after `fuel` iterations (the Rust
loop can genuinely spin forever, e.g. under an always-`Repeat` handler with an
always-failing factory). -/
def FutureRetry.poll (mkDelay : Nat → DelayBeh) :
    Nat → FutureRetry V E E' →
      Option (FPollRes V E' × FutureRetry V E E' × List (FEv E))
  | 0, _ => none
  | fuel + 1, s =>
    match s.state with
    | .TimerActive d =>
      match d.pends, d.fails with
      | k + 1, b => some (.NotReady, { s with state := .TimerActive ⟨k, b⟩ }, [])
      | 0, true => some (.Panicked, s, [])
      | 0, false =>
          addFLog [.factoryCall]
            (FutureRetry.poll mkDelay fuel
              { s with state := .WaitingForFuture (s.factory s.calls),
                       calls := s.calls + 1 })
    | .WaitingForFuture f =>
      match f.pends with
      | k + 1 =>
          some (.NotReady,
            { s with state := .WaitingForFuture ⟨k, f.result⟩ }, [])
      | 0 =>
        match f.result with
        | .Ok v => some (.Ready v, s, [])
        | .Err e =>
          match s.error_action e with
          | .ForwardError e2 => some (.Errored e2, s, [.handleCall e])
          | .Repeat =>
              addFLog [.handleCall e, .factoryCall]
                (FutureRetry.poll mkDelay fuel
                  { s with state := .WaitingForFuture (s.factory s.calls),
                           calls := s.calls + 1 })
          | .WaitRetry dur =>
              addFLog [.handleCall e]
                (FutureRetry.poll mkDelay fuel
                  { s with state := .TimerActive (mkDelay dur) })

/-- The attempt counter after consuming a chunk of stream responses, starting
from `a`: a success resets it to 1, a failure adds 1, `Pending` leaves it. -/
def attemptAfter (a : Nat) : List (StreamEv I E) → Nat
  | [] => a
  | .pending :: rest => attemptAfter a rest
  | .item (.Ok _) :: rest => attemptAfter 1 rest
  | .item (.Err _) :: rest => attemptAfter (a + 1) rest

/-- The attempt numbers at which `ok` is due while consuming a chunk of stream
responses with the counter starting at `a`: one entry per success, carrying
the counter value reached by the failures preceding it. -/
def okLog (a : Nat) : List (StreamEv I E) → List Nat
  | [] => []
  | .pending :: rest => okLog a rest
  | .item (.Ok _) :: rest => a :: okLog 1 rest
  | .item (.Err _) :: rest => okLog (a + 1) rest

/-- The attempt arguments of the `ok` calls in a handler log, in order. -/
def okAttempts : List (HandlerEv E) → List Nat :=
  List.filterMap fun ev =>
    match ev with
    | .okCall a => some a
    | _ => none

/-- The attempt tags of the successes among emitted items, in order. -/
def successTags : List (RResult (I × Nat) (E' × Nat)) → List Nat :=
  List.filterMap fun r =>
    match r with
    | .Ok (_, k) => some k
    | _ => none

/-- The attempt tag of a poll result when it emits a success, else nothing. -/
def resTags : SPollRes I E' → List Nat
  | .Ready (some (.Ok (_, k))) => [k]
  | _ => []

/-- Whether a stream response is a failed item. -/
def isFailure : StreamEv I E → Bool
  | .item (.Err _) => true
  | _ => false

/-- Whether a stream response is a successful item. -/
def isSuccess : StreamEv I E → Bool
  | .item (.Ok _) => true
  | _ => false

lemma okAttempts_append (l1 l2 : List (HandlerEv E)) :
    okAttempts (l1 ++ l2) = okAttempts l1 ++ okAttempts l2 :=
  List.filterMap_append ..

lemma attemptAfter_append (c1 : List (StreamEv I E)) :
    ∀ (a : Nat) (c2 : List (StreamEv I E)),
      attemptAfter a (c1 ++ c2) = attemptAfter (attemptAfter a c1) c2 := by
  induction c1 with
  | nil => intro a c2; rfl
  | cons ev rest ih =>
    intro a c2
    match ev with
    | .pending => simpa [attemptAfter] using ih a c2
    | .item (.Ok x) => simpa [attemptAfter] using ih 1 c2
    | .item (.Err e) => simpa [attemptAfter] using ih (a + 1) c2

lemma okLog_append (c1 : List (StreamEv I E)) :
    ∀ (a : Nat) (c2 : List (StreamEv I E)),
      okLog a (c1 ++ c2) = okLog a c1 ++ okLog (attemptAfter a c1) c2 := by
  induction c1 with
  | nil => intro a c2; rfl
  | cons ev rest ih =>
    intro a c2
    match ev with
    | .pending => simpa [okLog, attemptAfter] using ih a c2
    | .item (.Ok x) => simpa [okLog, attemptAfter] using ih 1 c2
    | .item (.Err e) => simpa [okLog, attemptAfter] using ih (a + 1) c2

lemma attemptAfter_pos (c : List (StreamEv I E)) :
    ∀ a : Nat, 1 ≤ a → 1 ≤ attemptAfter a c := by
  induction c with
  | nil => intro a ha; exact ha
  | cons ev rest ih =>
    intro a ha
    match ev with
    | .pending => exact ih a ha
    | .item (.Ok x) => exact ih 1 le_rfl
    | .item (.Err e) => exact ih (a + 1) (Nat.le_succ_of_le ha)

lemma poll_listening_spec (handle : Nat → E → RetryPolicy E') :
    ∀ (src : List (StreamEv I E)) (a : Nat),
      ∃ c, src = c ++ (poll_listening handle a src).stream ∧
        (poll_listening handle a src).attempt = attemptAfter a c ∧
        okAttempts (poll_listening handle a src).log = okLog a c ∧
        resTags (poll_listening handle a src).res =
          okAttempts (poll_listening handle a src).log := by
  intro src
  induction src with
  | nil =>
    intro a
    exact ⟨[], by simp [poll_listening, attemptAfter, okLog, okAttempts, resTags]⟩
  | cons ev rest ih =>
    intro a
    match ev with
    | .pending =>
      exact ⟨[.pending],
        by simp [poll_listening, attemptAfter, okLog, okAttempts, resTags]⟩
    | .item (.Ok x) =>
      exact ⟨[.item (.Ok x)],
        by simp [poll_listening, attemptAfter, okLog, okAttempts, resTags]⟩
    | .item (.Err e) =>
      cases hpol : handle a e with
      | ForwardError e2 =>
        exact ⟨[.item (.Err e)],
          by simp [poll_listening, hpol, attemptAfter, okLog, okAttempts, resTags]⟩
      | Repeat =>
        obtain ⟨c, hc, ha, hok, hres⟩ := ih (a + 1)
        refine ⟨.item (.Err e) :: c, ?_⟩
        simp [poll_listening, hpol, attemptAfter, okLog, okAttempts] at *
        exact ⟨hc, ha, hok, hres⟩
      | WaitRetry d =>
        match d with
        | 0 =>
          obtain ⟨c, hc, ha, hok, hres⟩ := ih (a + 1)
          refine ⟨.item (.Err e) :: c, ?_⟩
          simp [poll_listening, hpol, attemptAfter, okLog, okAttempts] at *
          exact ⟨hc, ha, hok, hres⟩
        | d + 1 =>
          exact ⟨[.item (.Err e)],
            by simp [poll_listening, hpol, attemptAfter, okLog, okAttempts,
              resTags]⟩

lemma poll_next_spec (s : StreamRetry I E E') :
    ∃ c, s.stream = c ++ s.poll_next.2.1.stream ∧
      s.poll_next.2.1.attempt = attemptAfter s.attempt c ∧
      okAttempts s.poll_next.2.2 = okLog s.attempt c ∧
      resTags s.poll_next.1 = okAttempts s.poll_next.2.2 ∧
      s.poll_next.2.1.error_action = s.error_action := by
  match hst : s.state with
  | .TimerActive (r + 1) =>
    exact ⟨[], by simp [StreamRetry.poll_next, hst, attemptAfter, okLog,
      okAttempts, resTags]⟩
  | .TimerActive 0 =>
    obtain ⟨c, hc, ha, hok, hres⟩ :=
      poll_listening_spec s.error_action s.stream s.attempt
    refine ⟨c, ?_, ?_, ?_, ?_, ?_⟩ <;>
      simp only [StreamRetry.poll_next, hst, StreamRetry.lift]
    · exact hc
    · exact ha
    · exact hok
    · exact hres
  | .WaitingForStream =>
    obtain ⟨c, hc, ha, hok, hres⟩ :=
      poll_listening_spec s.error_action s.stream s.attempt
    refine ⟨c, ?_, ?_, ?_, ?_, ?_⟩ <;>
      simp only [StreamRetry.poll_next, hst, StreamRetry.lift]
    · exact hc
    · exact ha
    · exact hok
    · exact hres

lemma successTags_cons (it : RResult (I × Nat) (E' × Nat))
    (l : List (RResult (I × Nat) (E' × Nat))) :
    successTags (it :: l) = resTags (SPollRes.Ready (some it)) ++ successTags l := by
  match it with
  | .Ok (v, k) => simp [successTags, resTags]
  | .Err p => simp [successTags, resTags]

lemma run_stream_spec :
    ∀ (fuel : Nat) (s : StreamRetry I E E'),
      ∃ c, s.stream = c ++ (run_stream fuel s).2.2.stream ∧
        (run_stream fuel s).2.2.attempt = attemptAfter s.attempt c ∧
        okAttempts (run_stream fuel s).2.1 = okLog s.attempt c ∧
        successTags (run_stream fuel s).1 = okAttempts (run_stream fuel s).2.1 := by
  intro fuel
  induction fuel with
  | zero =>
    intro s
    exact ⟨[], by simp [run_stream, attemptAfter, okLog, okAttempts, successTags]⟩
  | succ n ih =>
    intro s
    obtain ⟨c1, hc1, ha1, hok1, hres1, hea1⟩ := poll_next_spec s
    match hp : s.poll_next with
    | (res, s', log) =>
      rw [hp] at hc1 ha1 hok1 hres1 hea1
      match res with
      | .Ready none =>
        refine ⟨c1, ?_, ?_, ?_, ?_⟩ <;> simp only [run_stream, hp]
        · exact hc1
        · exact ha1
        · exact hok1
        · simp [resTags, successTags] at hres1 ⊢
          exact hres1
      | .Ready (some it) =>
        obtain ⟨c2, hc2, ha2, hok2, hres2⟩ := ih s'
        refine ⟨c1 ++ c2, ?_, ?_, ?_, ?_⟩ <;> simp only [run_stream, hp]
        · rw [hc1, hc2, List.append_assoc]
        · rw [ha2, ha1, attemptAfter_append]
        · rw [okAttempts_append, hok1, hok2, ha1, okLog_append]
        · rw [successTags_cons, hres2, okAttempts_append, hres1]
      | .Pending =>
        obtain ⟨c2, hc2, ha2, hok2, hres2⟩ := ih s'
        refine ⟨c1 ++ c2, ?_, ?_, ?_, ?_⟩ <;> simp only [run_stream, hp]
        · rw [hc1, hc2, List.append_assoc]
        · rw [ha2, ha1, attemptAfter_append]
        · rw [okAttempts_append, hok1, hok2, ha1, okLog_append]
        · simp only [resTags] at hres1
          rw [hres2, okAttempts_append, ← hres1, List.nil_append]

/-- The states a `StreamRetry` can reach from a given one by repeated
`poll_next` calls. -/
inductive StreamRetry.Reach :
    StreamRetry I E E' → StreamRetry I E E' → Prop where
  | refl (s : StreamRetry I E E') : StreamRetry.Reach s s
  | step {s t : StreamRetry I E E'} :
      StreamRetry.Reach s t → StreamRetry.Reach s t.poll_next.2.1

lemma StreamRetry.Reach.attempt_pos {s0 s : StreamRetry I E E'}
    (h : StreamRetry.Reach s0 s) (h0 : 1 ≤ s0.attempt) : 1 ≤ s.attempt := by
  induction h with
  | refl => exact h0
  | @step t hreach ih =>
    obtain ⟨c, _, ha, _, _, _⟩ := poll_next_spec t
    rw [ha]
    exact attemptAfter_pos c _ ih

lemma okLog_reset (v : I) (rest : List (StreamEv I E)) :
    ∀ (pre : List (StreamEv I E)) (a : Nat),
      (∀ x ∈ pre, isSuccess x = false) →
      okLog a (pre ++ .item (.Ok v) :: rest) =
        (a + pre.countP isFailure) :: okLog 1 rest := by
  intro pre
  induction pre with
  | nil => intro a h; simp [okLog]
  | cons x pre' ih =>
    intro a h
    have hx : isSuccess x = false := h x (List.mem_cons_self x pre')
    have h' : ∀ y ∈ pre', isSuccess y = false :=
      fun y hy => h y (List.mem_cons_of_mem x hy)
    match x with
    | .pending =>
      rw [List.cons_append]
      show okLog a (pre' ++ _) = _
      rw [ih a h']
      simp [List.countP_cons, isFailure]
    | .item (.Err e) =>
      rw [List.cons_append]
      show okLog (a + 1) (pre' ++ _) = _
      rw [ih (a + 1) h']
      have : a + 1 + pre'.countP isFailure =
          a + List.countP isFailure (StreamEv.item (RResult.Err e) :: pre') := by
        simp [List.countP_cons, isFailure]
        omega
      rw [this]
    | .item (.Ok y) => simp [isSuccess] at hx

lemma addFLog_okCall_free {l : List (FEv E)}
    {o : Option (FPollRes V E' × FutureRetry V E E' × List (FEv E))}
    {res : FPollRes V E'} {s' : FutureRetry V E E'} {lg : List (FEv E)}
    (h : addFLog l o = some (res, s', lg)) (hl : FEv.okCall ∉ l)
    (ho : ∀ r2 s2 lg2, o = some (r2, s2, lg2) → FEv.okCall ∉ lg2) :
    FEv.okCall ∉ lg := by
  match o with
  | none => simp [addFLog] at h
  | some (r2, s2, lg2) =>
    simp only [addFLog, Option.some.injEq, Prod.mk.injEq] at h
    obtain ⟨h1, h2, h3⟩ := h
    rw [← h3]
    simp only [List.mem_append]
    rintro (hc | hc)
    · exact hl hc
    · exact ho r2 s2 lg2 rfl hc

lemma poll_okCall_free (mkDelay : Nat → DelayBeh) :
    ∀ (fuel : Nat) (s : FutureRetry V E E') (res : FPollRes V E')
      (s' : FutureRetry V E E') (lg : List (FEv E)),
      FutureRetry.poll mkDelay fuel s = some (res, s', lg) →
      FEv.okCall ∉ lg := by
  intro fuel
  induction fuel with
  | zero => intro s res s' lg h; simp [FutureRetry.poll] at h
  | succ n ih =>
    rintro ⟨fac, ea, calls, st⟩ res s' lg h
    cases st with
    | TimerActive d =>
      obtain ⟨dp, df⟩ := d
      cases dp with
      | succ k =>
        simp only [FutureRetry.poll, Option.some.injEq, Prod.mk.injEq] at h
        obtain ⟨h1, h2, h3⟩ := h
        rw [← h3]
        simp
      | zero =>
        cases df with
        | true =>
          simp only [FutureRetry.poll, Option.some.injEq, Prod.mk.injEq] at h
          obtain ⟨h1, h2, h3⟩ := h
          rw [← h3]
          simp
        | false =>
          simp only [FutureRetry.poll] at h
          exact addFLog_okCall_free h (by simp)
            (fun r2 s2 lg2 hr => ih _ _ _ _ hr)
    | WaitingForFuture f =>
      obtain ⟨fp, fr⟩ := f
      cases fp with
      | succ k =>
        simp only [FutureRetry.poll, Option.some.injEq, Prod.mk.injEq] at h
        obtain ⟨h1, h2, h3⟩ := h
        rw [← h3]
        simp
      | zero =>
        cases fr with
        | Ok v =>
          simp only [FutureRetry.poll, Option.some.injEq, Prod.mk.injEq] at h
          obtain ⟨h1, h2, h3⟩ := h
          rw [← h3]
          simp
        | Err e =>
          cases hpol : ea e with
          | ForwardError e2 =>
            simp only [FutureRetry.poll, hpol, Option.some.injEq,
              Prod.mk.injEq] at h
            obtain ⟨h1, h2, h3⟩ := h
            rw [← h3]
            simp
          | Repeat =>
            simp only [FutureRetry.poll, hpol] at h
            exact addFLog_okCall_free h (by simp)
              (fun r2 s2 lg2 hr => ih _ _ _ _ hr)
          | WaitRetry dur =>
            simp only [FutureRetry.poll, hpol] at h
            exact addFLog_okCall_free h (by simp)
              (fun r2 s2 lg2 hr => ih _ _ _ _ hr)

/-- Embeds `IoHandler::calculate_wait_duration`
(src/examples/tcp-listener-complex.rs lines 34–43) as the real-valued
function of the 1-indexed attempt number `n`, before rounding to whole
milliseconds: `MIN + atan(n − 1) · (2/π) · (1/(MAX − MIN))` with
`MIN = 5`, `MAX = 1000`. -/
noncomputable def calculate_wait_duration (n : ℕ) : ℝ :=
  5 + Real.arctan ((n : ℝ) - 1) * (2 / Real.pi) * (1 / (1000 - 5))

/-- Scenario C of the spec: source `[Err(17), Ok(19)]` under an
always-`ForwardError` handler, built with `StreamRetry::new`. -/
def scenarioC : StreamRetry Nat Nat Nat :=
  StreamRetry.new [.item (.Err 17), .item (.Ok 19)]
    (fun _ e => RetryPolicy.ForwardError e)

/-- C1 counterexample: on source `[Err(17), Ok(19)]` with an
always-`ForwardError` handler, the first poll emits the error-tagged pair
`(17,1)`, but the second poll emits the success pair `(19,2)`, not `(19,1)`
as the claim states — the failure forwarded at attempt 1 still incremented
the counter, and a success reports the pre-reset counter value. -/
theorem C1_counterexample :
    scenarioC.poll_next.1 = .Ready (some (.Err (17, 1))) ∧
    scenarioC.poll_next.2.1.poll_next.1 = .Ready (some (.Ok (19, 2))) ∧
    scenarioC.poll_next.2.1.poll_next.1 ≠ .Ready (some (.Ok (19, 1))) := by
  decide

/-- C1 (amended): for the sequence variant driven over the source
`[Err(17), Ok(19)]` with a handler that always returns `ForwardError`, the
first emitted element is the error-tagged pair `(17,1)`, and continuing to
poll afterwards emits the success pair `(19,2)` — the sequence is not closed
by the forward decision, and the success that follows the forwarded error is
reported with attempt number 2. -/
theorem C1_amended :
    scenarioC.poll_next.1 = .Ready (some (.Err (17, 1))) ∧
    scenarioC.poll_next.2.1.poll_next.1 = .Ready (some (.Ok (19, 2))) ∧
    (run_stream 3 scenarioC).1 = [.Err (17, 1), .Ok (19, 2)] := by
  decide

/-- C10: when the wrapped source signals exhaustion while the sequence
variant is in the `Listening` (`WaitingForStream`) state, `poll_next`
returns end-of-sequence immediately, the machine is unchanged (in
particular the attempt counter, whatever failures preceded), and no
handler notification (`handle` or `ok`) is issued. -/
theorem C10_exhaustion_frame (s : StreamRetry I E E')
    (h1 : s.state = RetryState.WaitingForStream) (h2 : s.stream = []) :
    s.poll_next = (SPollRes.Ready none, s, []) := by
  obtain ⟨ea, str, a, st⟩ := s
  simp only at h1 h2
  subst h1
  subst h2
  rfl

/-- C10 witness: a concrete exhausted-source machine with attempt counter 5
returns end-of-sequence, unchanged, with an empty notification log. -/
theorem C10_witness :
    (StreamRetry.with_counter ([] : List (StreamEv Nat Nat))
        (fun _ e => RetryPolicy.ForwardError e) 5 :
      StreamRetry Nat Nat Nat).poll_next =
    (SPollRes.Ready none,
      StreamRetry.with_counter [] (fun _ e => RetryPolicy.ForwardError e) 5,
      []) :=
  C10_exhaustion_frame _ rfl rfl

/-- C4: on a failure of the source in the `Listening` state, the handler is
consulted with the pre-increment counter value (the first notification of
the poll is `handle(attempt, e)`), and the stored counter is incremented by
exactly 1: a `ForwardError` decided at attempt `a` is emitted as `(e2, a)`
with the counter left at `a + 1`; a `Repeat` (or an immediately elapsing
`WaitRetry 0`) continues the very same poll from counter `a + 1`; a
`WaitRetry (d+1)` arms the timer with the counter at `a + 1`. -/
theorem C4_attempt_increment (s : StreamRetry I E E') (e : E)
    (rest : List (StreamEv I E))
    (h1 : s.state = RetryState.WaitingForStream)
    (h2 : s.stream = StreamEv.item (RResult.Err e) :: rest) :
    s.poll_next.2.2.head? = some (HandlerEv.handleCall s.attempt e) ∧
    (∀ e2, s.error_action s.attempt e = RetryPolicy.ForwardError e2 →
      s.poll_next = (SPollRes.Ready (some (RResult.Err (e2, s.attempt))),
        { s with
            attempt := s.attempt + 1
            stream := rest
            state := RetryState.WaitingForStream },
        [HandlerEv.handleCall s.attempt e])) ∧
    (s.error_action s.attempt e = RetryPolicy.Repeat →
      s.poll_next = s.lift
        (let out := poll_listening s.error_action (s.attempt + 1) rest
         { out with log := HandlerEv.handleCall s.attempt e :: out.log })) ∧
    (∀ d, s.error_action s.attempt e = RetryPolicy.WaitRetry (d + 1) →
      s.poll_next = (SPollRes.Pending,
        { s with
            attempt := s.attempt + 1
            stream := rest
            state := RetryState.TimerActive d },
        [HandlerEv.handleCall s.attempt e])) ∧
    (s.error_action s.attempt e = RetryPolicy.WaitRetry 0 →
      s.poll_next = s.lift
        (let out := poll_listening s.error_action (s.attempt + 1) rest
         { out with log := HandlerEv.handleCall s.attempt e :: out.log })) := by
  obtain ⟨ea, str, a, st⟩ := s
  simp only at h1 h2 ⊢
  subst h1
  subst h2
  refine ⟨?_, ?_, ?_, ?_, ?_⟩
  · cases hpol : ea a e with
    | ForwardError e2 =>
      simp [StreamRetry.poll_next, poll_listening, StreamRetry.lift, hpol]
    | Repeat =>
      simp [StreamRetry.poll_next, poll_listening, StreamRetry.lift, hpol]
    | WaitRetry d =>
      match d with
      | 0 =>
        simp [StreamRetry.poll_next, poll_listening, StreamRetry.lift, hpol]
      | d + 1 =>
        simp [StreamRetry.poll_next, poll_listening, StreamRetry.lift, hpol]
  · intro e2 hpol
    simp [StreamRetry.poll_next, poll_listening, StreamRetry.lift, hpol]
  · intro hpol
    simp [StreamRetry.poll_next, poll_listening, StreamRetry.lift, hpol]
  · intro d hpol
    simp [StreamRetry.poll_next, poll_listening, StreamRetry.lift, hpol]
  · intro hpol
    simp [StreamRetry.poll_next, poll_listening, StreamRetry.lift, hpol]

/-- C4 witness: a concrete failure under an always-`ForwardError` handler at
attempt 4 is emitted as `(17, 4)` and leaves the counter at 5. -/
theorem C4_witness :
    (StreamRetry.with_counter [StreamEv.item (RResult.Err 17)]
        (fun _ e => RetryPolicy.ForwardError e) 4 :
      StreamRetry Nat Nat Nat).poll_next =
      (SPollRes.Ready (some (RResult.Err (17, 4))),
        StreamRetry.with_counter [] (fun _ e => RetryPolicy.ForwardError e) 5,
        [HandlerEv.handleCall 4 17]) := by
  have h := (C4_attempt_increment
    (StreamRetry.with_counter [StreamEv.item (RResult.Err 17)]
      (fun _ e => RetryPolicy.ForwardError e) 4 :
        StreamRetry Nat Nat Nat) 17 [] rfl rfl).2.1 17 rfl
  simpa [StreamRetry.with_counter] using h

/-- C6: a `ForwardError` decision does not close the sequence: exactly one
error-tagged element is emitted, the machine is left in the
`Listening` (`WaitingForStream`) state with the rest of the source intact,
and a subsequent poll still produces the next item of the wrapped source. -/
theorem C6_forward_not_closing (s : StreamRetry I E E') (e : E) (e2 : E')
    (rest : List (StreamEv I E))
    (h1 : s.state = RetryState.WaitingForStream)
    (h2 : s.stream = StreamEv.item (RResult.Err e) :: rest)
    (h3 : s.error_action s.attempt e = RetryPolicy.ForwardError e2) :
    s.poll_next = (SPollRes.Ready (some (RResult.Err (e2, s.attempt))),
      { s with
          attempt := s.attempt + 1
          stream := rest
          state := RetryState.WaitingForStream },
      [HandlerEv.handleCall s.attempt e]) ∧
    (∀ v rest', rest = StreamEv.item (RResult.Ok v) :: rest' →
      s.poll_next.2.1.poll_next.1 =
        SPollRes.Ready (some (RResult.Ok (v, s.attempt + 1)))) := by
  obtain ⟨ea, str, a, st⟩ := s
  simp only at h1 h2 h3 ⊢
  subst h1
  subst h2
  constructor
  · simp [StreamRetry.poll_next, poll_listening, StreamRetry.lift, h3]
  · intro v rest' hrest
    subst hrest
    simp [StreamRetry.poll_next, poll_listening, StreamRetry.lift, h3]

/-- C6 witness: scenario C's machine forwards `(17,1)`, stays listening, and
the following poll still yields the success `(19,2)`. -/
theorem C6_witness :
    scenarioC.poll_next =
      (SPollRes.Ready (some (RResult.Err (17, 1))),
        { scenarioC with
            attempt := 2
            stream := [StreamEv.item (RResult.Ok 19)]
            state := RetryState.WaitingForStream },
        [HandlerEv.handleCall 1 17]) ∧
    scenarioC.poll_next.2.1.poll_next.1 =
      SPollRes.Ready (some (RResult.Ok (19, 2))) := by
  have h := C6_forward_not_closing scenarioC 17 17
    [StreamEv.item (RResult.Ok 19)] rfl rfl rfl
  exact ⟨h.1, h.2 19 [] rfl⟩

/-- C8: in the future variant, a failure of the timer resource while in the
`Waiting` (`TimerActive`) state aborts the whole operation hard (the
`panic!` of future.rs line 98): the poll ends at once with `Panicked`, the
machine is left as it was (no retry, no new timer, no factory call), no
handler notification is issued, and the outcome is neither a success nor a
value on the normal error channel. -/
theorem C8_timer_failure_panics (mkDelay : Nat → DelayBeh) (fuel : Nat)
    (s : FutureRetry V E E') (d : DelayBeh)
    (h1 : s.state = FRetryState.TimerActive d) (h2 : d.pends = 0)
    (h3 : d.fails = true) :
    FutureRetry.poll mkDelay (fuel + 1) s = some (FPollRes.Panicked, s, []) ∧
    (∀ v : V, FPollRes.Panicked ≠ (FPollRes.Ready v : FPollRes V E')) ∧
    (∀ e2 : E', FPollRes.Panicked ≠ (FPollRes.Errored e2 : FPollRes V E')) := by
  obtain ⟨fac, ea, calls, st⟩ := s
  obtain ⟨dp, df⟩ := d
  simp only at h1 h2 h3
  subst h1
  subst h2
  subst h3
  refine ⟨rfl, ?_, ?_⟩
  · intro v hv; cases hv
  · intro e2 hv; cases hv

/-- C8 witness: a concrete machine waiting on a failed timer panics, leaving
the machine untouched and the notification log empty. -/
theorem C8_witness :
    FutureRetry.poll (fun du => ⟨du, false⟩) 7
      (⟨fun _ => ⟨0, RResult.Ok 3⟩, fun _ => RetryPolicy.Repeat, 1,
        FRetryState.TimerActive ⟨0, true⟩⟩ : FutureRetry Nat Nat Nat) =
    some (FPollRes.Panicked,
      ⟨fun _ => ⟨0, RResult.Ok 3⟩, fun _ => RetryPolicy.Repeat, 1,
        FRetryState.TimerActive ⟨0, true⟩⟩, []) :=
  (C8_timer_failure_panics (fun du => ⟨du, false⟩) 6 _ ⟨0, true⟩
    rfl rfl rfl).1

/-- Scenario D of the spec: a factory yielding a failing operation
(`Err 2`) and then a succeeding one (`Ok 3`), under an always-`Repeat`
handler. -/
def scenarioD : FutureRetry Nat Nat Nat :=
  FutureRetry.new (fun n => if n = 0 then ⟨0, .Err 2⟩ else ⟨0, .Ok 3⟩)
    (fun _ => RetryPolicy.Repeat)

/-- C5: `FutureRetry::new` invokes the factory exactly once at construction
(the call counter of a fresh machine is 1 and it waits on the factory's
first operation); each `Repeat` decision and each timer-elapsed transition
invokes the factory exactly once more (the poll continues, within the same
call, on a machine whose call counter has grown by exactly 1, with one
`factoryCall` notification recorded); and on Scenario D — factory yielding a
failing then a succeeding operation, always-`Repeat` handler — the final
result is the success value 3 with the factory invoked exactly twice. -/
theorem C5_factory_calls :
    (∀ (fac : Nat → FutBeh V E) (ea : E → RetryPolicy E'),
      (FutureRetry.new fac ea).calls = 1 ∧
      (FutureRetry.new fac ea).state = FRetryState.WaitingForFuture (fac 0)) ∧
    (∀ (mkDelay : Nat → DelayBeh) (fuel : Nat) (s : FutureRetry V E E')
        (f : FutBeh V E) (e : E),
      s.state = FRetryState.WaitingForFuture f → f.pends = 0 →
      f.result = RResult.Err e → s.error_action e = RetryPolicy.Repeat →
      FutureRetry.poll mkDelay (fuel + 1) s =
        addFLog [FEv.handleCall e, FEv.factoryCall]
          (FutureRetry.poll mkDelay fuel
            { s with
                state := FRetryState.WaitingForFuture (s.factory s.calls)
                calls := s.calls + 1 })) ∧
    (∀ (mkDelay : Nat → DelayBeh) (fuel : Nat) (s : FutureRetry V E E')
        (d : DelayBeh),
      s.state = FRetryState.TimerActive d → d.pends = 0 → d.fails = false →
      FutureRetry.poll mkDelay (fuel + 1) s =
        addFLog [FEv.factoryCall]
          (FutureRetry.poll mkDelay fuel
            { s with
                state := FRetryState.WaitingForFuture (s.factory s.calls)
                calls := s.calls + 1 })) ∧
    ((FutureRetry.poll (fun du => ⟨du, false⟩) 2 scenarioD).map
        (fun o => (o.1, o.2.1.calls)) = some (FPollRes.Ready 3, 2)) := by
  refine ⟨?_, ?_, ?_, ?_⟩
  · intro fac ea
    exact ⟨rfl, rfl⟩
  · intro mkDelay fuel s f e h1 h2 h3 h4
    obtain ⟨fac, ea, calls, st⟩ := s
    obtain ⟨fp, fr⟩ := f
    simp only at h1 h2 h3 h4 ⊢
    subst h1
    subst h2
    subst h3
    simp [FutureRetry.poll, h4]
  · intro mkDelay fuel s d h1 h2 h3
    obtain ⟨fac, ea, calls, st⟩ := s
    obtain ⟨dp, df⟩ := d
    simp only at h1 h2 h3 ⊢
    subst h1
    subst h2
    subst h3
    simp [FutureRetry.poll]
  · decide

/-- C5 witness: the repeat-step clause applied to Scenario D's machine: the
first poll continues, within the same call, on the machine whose factory has
been invoked a second time. -/
theorem C5_witness :
    FutureRetry.poll (fun du => ⟨du, false⟩) 2 scenarioD =
      addFLog [FEv.handleCall 2, FEv.factoryCall]
        (FutureRetry.poll (fun du => ⟨du, false⟩) 1
          { scenarioD with
              state := FRetryState.WaitingForFuture (scenarioD.factory 1)
              calls := 2 }) := by
  have h := C5_factory_calls.2.1 (fun du => ⟨du, false⟩) 1 scenarioD
    ⟨0, RResult.Err 2⟩ 2 rfl rfl rfl rfl
  simpa [scenarioD, FutureRetry.new] using h

/-- C7: a `Repeat` decision never moves either machine into the
timer-waiting state nor makes the machine itself report not-ready: in the
sequence variant the poll continues, within the same call, from the
`Listening` state on the remaining source with only the counter advanced;
in the future variant the poll continues, within the same call, waiting on
the freshly created operation — in both cases no timer is started. -/
theorem C7_repeat_no_timer {I E E' V : Type} :
    (∀ (handle : Nat → E → RetryPolicy E') (a : Nat) (e : E)
        (rest : List (StreamEv I E)),
      handle a e = RetryPolicy.Repeat →
      poll_listening handle a (StreamEv.item (RResult.Err e) :: rest) =
        (let out := poll_listening handle (a + 1) rest
         { out with log := HandlerEv.handleCall a e :: out.log })) ∧
    (∀ (mkDelay : Nat → DelayBeh) (fuel : Nat) (s : FutureRetry V E E')
        (f : FutBeh V E) (e : E),
      s.state = FRetryState.WaitingForFuture f → f.pends = 0 →
      f.result = RResult.Err e → s.error_action e = RetryPolicy.Repeat →
      FutureRetry.poll mkDelay (fuel + 1) s =
        addFLog [FEv.handleCall e, FEv.factoryCall]
          (FutureRetry.poll mkDelay fuel
            { s with
                state := FRetryState.WaitingForFuture (s.factory s.calls)
                calls := s.calls + 1 })) := by
  constructor
  · intro handle a e rest hpol
    simp [poll_listening, hpol]
  · intro mkDelay fuel s f e h1 h2 h3 h4
    obtain ⟨fac, ea, calls, st⟩ := s
    obtain ⟨fp, fr⟩ := f
    simp only at h1 h2 h3 h4 ⊢
    subst h1
    subst h2
    subst h3
    simp [FutureRetry.poll, h4]

/-- C7 witness: on a concrete failing source headed by `Err 9` with an
always-`Repeat` handler, one listening poll equals continuing at once on the
rest of the source with the counter advanced to 4, handler notified at 3. -/
theorem C7_witness :
    poll_listening (fun _ _ => RetryPolicy.Repeat) 3
        ([StreamEv.item (RResult.Err 9), StreamEv.item (RResult.Ok 5)] :
          List (StreamEv Nat Nat)) =
      (let out := poll_listening
          (fun _ _ => (RetryPolicy.Repeat : RetryPolicy Nat)) 4
          [StreamEv.item (RResult.Ok 5)]
       { out with log := HandlerEv.handleCall 3 9 :: out.log }) :=
  (C7_repeat_no_timer (V := Nat)).1 (fun _ _ => RetryPolicy.Repeat) 3 9
    [StreamEv.item (RResult.Ok 5)] rfl

/-- C2 counterexample: the future variant does not invoke `ok()` on success.
A machine whose inner operation succeeds immediately returns the success
value with an empty notification log — no `okCall` is ever issued
(`FutureRetry::poll` returns `Ok(x)` directly, future.rs line 102). -/
theorem C2_counterexample :
    (FutureRetry.poll (fun du => ⟨du, false⟩) 1
        (FutureRetry.new (fun _ => ⟨0, RResult.Ok 3⟩)
          (fun _ => RetryPolicy.Repeat) : FutureRetry Nat Nat Nat)).map
      (fun o => (o.1, o.2.2)) = some (FPollRes.Ready 3, []) ∧
    FEv.okCall ∉ ([] : List (FEv Nat)) := by
  constructor
  · decide
  · simp

/-- C2 (amended): in the sequence variant, every emitted success is
accompanied by exactly one `ok` call whose attempt argument is the
success's own attempt tag — over any run from construction via `new`, the
sequence of `ok`-call attempts equals the success tags of the emitted
items and equals `okLog 1` of the consumed source prefix — and that value
is one plus the count of consecutive immediately preceding failures since
the last success (or since construction); the future variant, by contrast,
never invokes `ok`. -/
theorem C2_amended {I E E' V : Type} :
    (∀ (handle : Nat → E → RetryPolicy E') (fuel : Nat)
        (src : List (StreamEv I E)),
      ∃ c, src = c ++
          (run_stream fuel (StreamRetry.new src handle)).2.2.stream ∧
        okAttempts (run_stream fuel (StreamRetry.new src handle)).2.1 =
          okLog 1 c ∧
        successTags (run_stream fuel (StreamRetry.new src handle)).1 =
          okAttempts (run_stream fuel (StreamRetry.new src handle)).2.1) ∧
    (∀ (pre : List (StreamEv I E)) (v : I) (rest : List (StreamEv I E)),
      (∀ x ∈ pre, isSuccess x = false) →
      okLog 1 (pre ++ StreamEv.item (RResult.Ok v) :: rest) =
        (1 + pre.countP isFailure) :: okLog 1 rest) ∧
    (∀ (mkDelay : Nat → DelayBeh) (fuel : Nat) (s : FutureRetry V E E')
        (res : FPollRes V E') (s' : FutureRetry V E E') (lg : List (FEv E)),
      FutureRetry.poll mkDelay fuel s = some (res, s', lg) →
      FEv.okCall ∉ lg) := by
  refine ⟨?_, ?_, ?_⟩
  · intro handle fuel src
    obtain ⟨c, hc, ha, hok, hres⟩ :=
      run_stream_spec fuel (StreamRetry.new src handle)
    exact ⟨c, hc, hok, hres⟩
  · intro pre v rest hpre
    exact okLog_reset v rest pre 1 hpre
  · exact poll_okCall_free

/-- C2 witness: a source with one failure then a success records, from a
fresh machine, exactly one due `ok` at attempt 2 = 1 + one preceding
failure. -/
theorem C2_witness :
    okLog 1 (([StreamEv.item (RResult.Err 7)] : List (StreamEv Nat Nat)) ++
        StreamEv.item (RResult.Ok 5) :: []) =
      (1 + List.countP isFailure
          ([StreamEv.item (RResult.Err 7)] : List (StreamEv Nat Nat))) ::
        okLog 1 ([] : List (StreamEv Nat Nat)) ∧
    (1 + List.countP isFailure
        ([StreamEv.item (RResult.Err 7)] : List (StreamEv Nat Nat))) ::
      okLog 1 ([] : List (StreamEv Nat Nat)) = [2] :=
  ⟨(@C2_amended Nat Nat Nat Nat).2.1 [StreamEv.item (RResult.Err 7)] 5 []
      (by decide),
    by decide⟩

/-- C3 counterexample: `with_counter` accepts any caller-supplied initial
value, including 0 — the machine so constructed (a reachable state of that
construction) has attempt counter 0, violating "always ≥ 1 for every
construction". -/
theorem C3_counterexample :
    (StreamRetry.with_counter ([] : List (StreamEv Nat Nat))
        (fun _ e => RetryPolicy.ForwardError e) 0 :
      StreamRetry Nat Nat Nat).attempt = 0 ∧
    ¬ (1 ≤ (StreamRetry.with_counter ([] : List (StreamEv Nat Nat))
        (fun _ e => RetryPolicy.ForwardError e) 0 :
      StreamRetry Nat Nat Nat).attempt) := by
  decide

/-- C3 (amended): in the sequence variant, whenever the initial counter is
at least 1 — as with `new`, which uses 1, or `with_counter` with any value
≥ 1 — every state reachable by polling keeps the attempt counter ≥ 1; and
the counter is set to 1 by the poll that records a success, before any
later failure increments it.  (For `with_counter` with 0 the bound fails at
construction, see the counterexample.) -/
theorem C3_amended {I E E' : Type} :
    (∀ (src : List (StreamEv I E)) (handle : Nat → E → RetryPolicy E')
        (c : Nat), 1 ≤ c →
      ∀ s, StreamRetry.Reach (StreamRetry.with_counter src handle c) s →
        1 ≤ s.attempt) ∧
    (∀ (s : StreamRetry I E E') (v : I) (rest : List (StreamEv I E)),
      s.state = RetryState.WaitingForStream →
      s.stream = StreamEv.item (RResult.Ok v) :: rest →
      s.poll_next.2.1.attempt = 1) := by
  constructor
  · intro src handle c hc s hreach
    exact hreach.attempt_pos hc
  · intro s v rest h1 h2
    obtain ⟨ea, str, a, st⟩ := s
    simp only at h1 h2
    subst h1
    subst h2
    simp [StreamRetry.poll_next, poll_listening, StreamRetry.lift]

/-- C3 witness: from `new` (counter 1), the state after two polls of a
concrete source still has counter ≥ 1, and the poll consuming a success
resets the counter to 1 on a machine whose counter was 7. -/
theorem C3_witness :
    1 ≤ ((StreamRetry.with_counter [StreamEv.item (RResult.Ok 5)]
        (fun _ e => RetryPolicy.ForwardError e) 3 :
      StreamRetry Nat Nat Nat).poll_next.2.1).attempt ∧
    (StreamRetry.with_counter [StreamEv.item (RResult.Ok 5)]
        (fun _ e => RetryPolicy.ForwardError e) 7 :
      StreamRetry Nat Nat Nat).poll_next.2.1.attempt = 1 := by
  constructor
  · exact C3_amended.1 _ _ 3 (by decide) _
      (StreamRetry.Reach.step (StreamRetry.Reach.refl _))
  · exact C3_amended.2 _ 5 [] rfl rfl

/-- C9: the bundled reference backoff curve
`wait(n) = MIN + atan(n−1)·(2/π)·(1/(MAX−MIN))` milliseconds with `MIN = 5`,
`MAX = 1000` is monotonically non-decreasing in the 1-indexed attempt number
`n`, and stays strictly below `MAX` for every `n ≥ 1` (the function is total,
hence defined for every such `n`). -/
theorem C9_backoff :
    (∀ m n : ℕ, 1 ≤ m → m ≤ n →
      calculate_wait_duration m ≤ calculate_wait_duration n) ∧
    (∀ n : ℕ, 1 ≤ n → calculate_wait_duration n < 1000) := by
  constructor
  · intro m n h1 hmn
    unfold calculate_wait_duration
    have hcast : (m : ℝ) ≤ (n : ℝ) := Nat.cast_le.mpr hmn
    have harc : Real.arctan ((m : ℝ) - 1) ≤ Real.arctan ((n : ℝ) - 1) :=
      Real.arctan_strictMono.monotone (by linarith)
    have hc : (0 : ℝ) ≤ 2 / Real.pi := by positivity
    have step1 : Real.arctan ((m : ℝ) - 1) * (2 / Real.pi) ≤
        Real.arctan ((n : ℝ) - 1) * (2 / Real.pi) :=
      mul_le_mul_of_nonneg_right harc hc
    have step2 : Real.arctan ((m : ℝ) - 1) * (2 / Real.pi) *
          (1 / (1000 - 5)) ≤
        Real.arctan ((n : ℝ) - 1) * (2 / Real.pi) * (1 / (1000 - 5)) :=
      mul_le_mul_of_nonneg_right step1 (by norm_num)
    linarith
  · intro n hn
    unfold calculate_wait_duration
    have hπ : (0 : ℝ) < Real.pi := Real.pi_pos
    have h1 : Real.arctan ((n : ℝ) - 1) < Real.pi / 2 :=
      Real.arctan_lt_pi_div_two _
    have h2 : Real.arctan ((n : ℝ) - 1) * (2 / Real.pi) <
        Real.pi / 2 * (2 / Real.pi) :=
      mul_lt_mul_of_pos_right h1 (by positivity)
    have h3 : Real.pi / 2 * (2 / Real.pi) = 1 := by field_simp
    have h4 : Real.arctan ((n : ℝ) - 1) * (2 / Real.pi) < 1 := h3 ▸ h2
    have h5 : Real.arctan ((n : ℝ) - 1) * (2 / Real.pi) *
          (1 / (1000 - 5)) < 1 * (1 / (1000 - 5)) :=
      mul_lt_mul_of_pos_right h4 (by norm_num)
    linarith

/-- C9 witness: the curve is non-decreasing from attempt 1 to attempt 2 and
stays below 1000 at attempt 3. -/
theorem C9_witness :
    calculate_wait_duration 1 ≤ calculate_wait_duration 2 ∧
    calculate_wait_duration 3 < 1000 :=
  ⟨C9_backoff.1 1 2 (by norm_num) (by norm_num), C9_backoff.2 3 (by norm_num)⟩
